import Mathlib

/-!
Verification of the CAN-FD to Ethernet gateway (src/main.cpp).

The development shallowly embeds the core of `run_gateway`: the per-frame
translation of a `canfd_frame` into a `GatewayPacket` (timestamping, metadata
copy, flag mapping, zero-fill and payload copy), the byte-exact packed wire
layout of `GatewayPacket`, and the forward loop's per-iteration error policy
(retry on short read, report-and-continue on send failure).

Machine integers are modelled as `Nat`; the C code performs no arithmetic on
the copied fields (`can_id`, `len`/`dlc`, payload bytes), so the values are
carried verbatim, and the fixed field widths of the packed struct show up in
the byte serialisation (`packetBytes`), where each field is truncated to its
declared width exactly as storing it in the struct would.
-/

namespace Gateway

/-- Model of the Linux `struct canfd_frame` as read from the CAN socket:
a 32-bit identifier (which may embed CAN_EFF_FLAG / CAN_RTR_FLAG bits),
an 8-bit length, 8-bit flag bits, and a 64-byte payload array. -/
structure canfd_frame where
  can_id : Nat
  len : Nat
  flags : Nat
  data : Fin 64 → Nat

/-- Linux `CANFD_BRS` flag bit (bit-rate switch), value 0x01 in linux/can.h. -/
def CANFD_BRS : Nat := 0x01

/-- Linux `CANFD_ESI` flag bit (error state indicator), value 0x02 in linux/can.h. -/
def CANFD_ESI : Nat := 0x02

/-- Model of the packed `GatewayPacket` struct from src/main.cpp lines 22-32:
`timestamp_ns` (uint64), `can_id` (uint32), `dlc` (uint8), `flags` (uint8),
`data` (64 bytes), declared under `#pragma pack(push, 1)`. -/
structure GatewayPacket where
  timestamp_ns : Nat
  can_id : Nat
  dlc : Nat
  flags : Nat
  data : Fin 64 → Nat

/-- The flag computation of src/main.cpp lines 117-119:
`pkt.flags = 0; if (frame.flags & CANFD_BRS) pkt.flags |= 0x01;
if (frame.flags & CANFD_ESI) pkt.flags |= 0x02;`. -/
def translateFlags (f : Nat) : Nat :=
  let fl : Nat := 0
  let fl := if f &&& CANFD_BRS ≠ 0 then fl ||| 0x01 else fl
  let fl := if f &&& CANFD_ESI ≠ 0 then fl ||| 0x02 else fl
  fl

/-- `std::memset(pkt.data, 0, 64)` on the 64-byte data array: every byte
becomes zero, whatever the buffer held before. -/
def memset0 (_buf : Fin 64 → Nat) : Fin 64 → Nat := fun _ => 0

/-- `std::memcpy(dst, src, n)` restricted to the 64-byte array: bytes at
indices below `n` are taken from `src`, the rest keep the value in `dst`.
The index set this call writes outside the array is tracked separately by
`memcpyWriteIndices`. -/
def memcpy64 (dst src : Fin 64 → Nat) (n : Nat) : Fin 64 → Nat :=
  fun i => if i.val < n then src i else dst i

/-- The set of byte offsets (relative to `pkt.data`) written by
`std::memcpy(pkt.data, frame.data, frame.len)` in src/main.cpp line 123:
offsets `0, 1, ..., frame.len - 1`, with no clamping of `frame.len`. -/
def memcpyWriteIndices (len : Nat) : List Nat := List.range len

/-- The per-frame translation of src/main.cpp lines 109-125, operating on the
reused packet buffer `pkt`: write the caller-obtained monotonic timestamp,
copy `can_id` and `len` verbatim, map the BRS/ESI flags, zero the data array
and copy `frame.len` payload bytes (the copy is skipped when `frame.len` is
zero, exactly as the `if (frame.len > 0)` guard does). -/
def translate (pkt : GatewayPacket) (frame : canfd_frame) (ts : Nat) : GatewayPacket :=
  { timestamp_ns := ts
    can_id := frame.can_id
    dlc := frame.len
    flags := translateFlags frame.flags
    data :=
      let d := memset0 pkt.data
      if frame.len > 0 then memcpy64 d frame.data frame.len else d }

/-- Little-endian byte serialisation of a value into `n` bytes, the layout a
packed struct field of width `n` has in memory on the (little-endian) source
machine; storing truncates to the field width exactly as the struct does. -/
def leBytes : Nat → Nat → List Nat
  | _, 0 => []
  | v, n + 1 => v % 256 :: leBytes (v / 256) n

/-- The byte image of a `GatewayPacket` as sent by
`sendto(udp_sock, &pkt, PACKET_SIZE, ...)`: the packed struct fields in
declaration order with no padding, each truncated to its declared width. -/
def packetBytes (p : GatewayPacket) : List Nat :=
  leBytes p.timestamp_ns 8 ++
    (leBytes p.can_id 4 ++
      ([p.dlc % 256] ++
        ([p.flags % 256] ++ List.ofFn (fun i => p.data i % 256))))

/-- `PACKET_SIZE = sizeof(GatewayPacket)` under `#pragma pack(1)`:
8 + 4 + 1 + 1 + 64 bytes. -/
def PACKET_SIZE : Nat := 8 + 4 + 1 + 1 + 64

/-- One iteration's outcome at the bus source, as `run_gateway` distinguishes
them: either `read` returned something other than `sizeof(frame)` (short read,
zero-byte read, or a negative return with any errno) and the loop `continue`s,
or it returned one complete frame; in the latter case the iteration also
carries the timestamp the loop obtains and whether the subsequent `sendto`
succeeds (`sendto` failing is the only other fallible step of the body). -/
inductive LoopEvent where
  | readErr
  | frame (f : canfd_frame) (ts : Nat) (sendOk : Bool)

/-- Whether a loop event is a complete-frame read. -/
def LoopEvent.isFrame : LoopEvent → Bool
  | .readErr => false
  | .frame _ _ _ => true

/-- One `sendto` call made by the loop: the packet bytes handed over and
whether the sink accepted them. -/
structure SendAttempt where
  packet : GatewayPacket
  succeeded : Bool

/-- The forward loop of `run_gateway` (src/main.cpp lines 99-132) run over a
finite prefix of bus-source outcomes, threading the reused packet buffer:
a failed read is discarded (`continue`) with nothing sent; a complete frame
is translated into the buffer and handed to `sendto` exactly once, and the
loop proceeds to the next read whatever `sendto` returned. -/
def runGateway (pkt : GatewayPacket) : List LoopEvent → List SendAttempt
  | [] => []
  | LoopEvent.readErr :: es => runGateway pkt es
  | LoopEvent.frame f ts so :: es =>
    let p := translate pkt f ts
    ⟨p, so⟩ :: runGateway p es

/-- Consecutive translations through the reused packet buffer: each frame of
the list is translated with its timestamp, the packet buffer state carrying
over from one iteration to the next as in `run_gateway`. -/
def translateSeq (pkt : GatewayPacket) : List (canfd_frame × Nat) → List GatewayPacket
  | [] => []
  | (f, ts) :: rest =>
    let p := translate pkt f ts
    p :: translateSeq p rest

/-- A concrete frame: the worked example of the spec, id 0x123, three payload
bytes AA BB CC, BRS flag set. -/
def sampleFrame : canfd_frame :=
  { can_id := 0x123
    len := 3
    flags := 0x01
    data := fun i =>
      if i.val = 0 then 0xAA else if i.val = 1 then 0xBB else if i.val = 2 then 0xCC else 0 }

/-- A packet buffer filled with nonzero garbage, standing for the stale
contents of the reused buffer before an iteration. -/
def stalePacket : GatewayPacket :=
  { timestamp_ns := 77, can_id := 99, dlc := 55, flags := 0xFF, data := fun _ => 0xEE }

/-- Every byte of the data array written by `translate` but at or past the
frame length is the memset zero, whatever `pkt` held. -/
theorem translate_data_eq (pkt : GatewayPacket) (f : canfd_frame) (ts : Nat)
    (i : Fin 64) :
    (translate pkt f ts).data i = if i.val < f.len then f.data i else 0 := by
  by_cases hpos : f.len > 0
  · simp [translate, memcpy64, memset0, hpos]
  · have h0 : f.len = 0 := by omega
    simp [translate, memcpy64, memset0, h0]

/-- Claim C5: for every input frame with an arbitrary 32-bit identifier value,
including values carrying embedded extended-ID or remote-request marker bits,
the output packet's `can_id` field equals the input identifier bit for bit,
with no filtering or masking applied. -/
theorem C5_id_passthrough (pkt : GatewayPacket) (f : canfd_frame) (ts : Nat) :
    (translate pkt f ts).can_id = f.can_id ∧
    ∀ k : Nat, ((translate pkt f ts).can_id).testBit k = (f.can_id).testBit k :=
  ⟨rfl, fun _ => rfl⟩

/-- Claim C2: for every frame with length L < 64, bytes [L, 64) of the output
packet's data field are all zero after translation, and the translated data
array does not depend on the prior contents of the reused packet buffer. -/
theorem C2_zero_padding (pkt : GatewayPacket) (f : canfd_frame) (ts : Nat)
    (_hlen : f.len < 64) :
    (∀ i : Fin 64, f.len ≤ i.val → (translate pkt f ts).data i = 0) ∧
    ∀ pkt' : GatewayPacket, (translate pkt f ts).data = (translate pkt' f ts).data := by
  refine ⟨fun i hi => ?_, fun pkt' => rfl⟩
  rw [translate_data_eq]
  simp [Nat.not_lt_of_le hi]

/-- Claim C2 witness: the stale all-0xEE buffer translated with the sample
3-byte frame carries zero in every byte from offset 3 on. -/
theorem C2_zero_padding_witness :
    sampleFrame.len < 64 ∧
    (∀ i : Fin 64, sampleFrame.len ≤ i.val → (translate stalePacket sampleFrame 5).data i = 0) ∧
    ∀ pkt' : GatewayPacket,
      (translate stalePacket sampleFrame 5).data = (translate pkt' sampleFrame 5).data :=
  ⟨by decide, C2_zero_padding stalePacket sampleFrame 5 (by decide)⟩

/-- Claim C3: for every frame with length L (0 ≤ L ≤ 64), the first L bytes of
the output packet's data field equal, byte for byte, the first L bytes of the
input frame's payload. -/
theorem C3_payload_fidelity (pkt : GatewayPacket) (f : canfd_frame) (ts : Nat)
    (_hlen : f.len ≤ 64) :
    ∀ i : Fin 64, i.val < f.len → (translate pkt f ts).data i = f.data i := by
  intro i hi
  rw [translate_data_eq]
  simp [hi]

/-- Claim C3 witness: translating the sample frame over the stale buffer
reproduces the payload bytes AA BB CC at offsets 0, 1, 2. -/
theorem C3_payload_fidelity_witness :
    sampleFrame.len ≤ 64 ∧
    ∀ i : Fin 64, i.val < sampleFrame.len →
      (translate stalePacket sampleFrame 5).data i = sampleFrame.data i :=
  ⟨by decide, C3_payload_fidelity stalePacket sampleFrame 5 (by decide)⟩

/-- A frame with unrecognised flag bits set besides BRS and ESI
(0xAB has bits 0, 1, 3, 5, 7 set) and an all-zero payload. -/
def junkFlagFrame : canfd_frame :=
  { can_id := 0xAB, len := 0, flags := 0xAB, data := fun _ => 0 }

/-- A zero-length frame whose payload array nevertheless holds nonzero
garbage, as the kernel leaves it for a zero-length CAN-FD frame. -/
def zeroFrame : canfd_frame :=
  { can_id := 7, len := 0, flags := 0x02, data := fun _ => 0xDD }

/-- The two C conditionals of lines 117-119 compute exactly bit 0 plus twice
bit 1 of the source flag byte. -/
theorem translateFlags_eq (f : Nat) :
    translateFlags f = (f.testBit 0).toNat + 2 * (f.testBit 1).toNat := by
  have h1 : f &&& 1 = (f.testBit 0).toNat := by
    have h := Nat.and_two_pow f 0
    simpa using h
  have h2 : f &&& 2 = (f.testBit 1).toNat * 2 := by
    have h := Nat.and_two_pow f 1
    simpa using h
  cases hb0 : f.testBit 0 <;> cases hb1 : f.testBit 1 <;>
    simp [translateFlags, CANFD_BRS, CANFD_ESI, h1, h2, hb0, hb1]

/-- Claim C4: the output flags byte has bit 0 set iff the frame's flags
include BRS and bit 1 set iff they include ESI, all remaining bits zero;
equivalently it equals BRS-bit + 2 * ESI-bit, so BRS-only gives 0x01,
ESI-only 0x02, both 0x03, neither 0x00, and unrecognized source flag bits
are dropped without error. -/
theorem C4_flag_mapping (pkt : GatewayPacket) (f : canfd_frame) (ts : Nat) :
    (translate pkt f ts).flags =
      ((f.flags).testBit 0).toNat + 2 * ((f.flags).testBit 1).toNat ∧
    ((translate pkt f ts).flags).testBit 0 = (f.flags).testBit 0 ∧
    ((translate pkt f ts).flags).testBit 1 = (f.flags).testBit 1 ∧
    ∀ k : Nat, 2 ≤ k → ((translate pkt f ts).flags).testBit k = false := by
  have he : (translate pkt f ts).flags =
      ((f.flags).testBit 0).toNat + 2 * ((f.flags).testBit 1).toNat :=
    translateFlags_eq f.flags
  refine ⟨he, ?_, ?_, ?_⟩
  · rw [he]
    cases hb0 : (f.flags).testBit 0 <;> cases hb1 : (f.flags).testBit 1 <;>
      simp [hb0, hb1]
  · rw [he]
    cases hb0 : (f.flags).testBit 0 <;> cases hb1 : (f.flags).testBit 1 <;>
      simp [hb0, hb1] <;> decide
  · intro k hk
    rw [he]
    apply Nat.testBit_eq_false_of_lt
    have hlt : ((f.flags).testBit 0).toNat + 2 * ((f.flags).testBit 1).toNat < 2 ^ 2 := by
      cases (f.flags).testBit 0 <;> cases (f.flags).testBit 1 <;> decide
    exact lt_of_lt_of_le hlt (Nat.pow_le_pow_right (by decide) hk)

/-- Claim C4 witness: source flags 0xAB (BRS and ESI set plus junk bits 3, 5,
7) produce output flags 0x03 with, say, bit 7 dropped. -/
theorem C4_flag_mapping_witness :
    (translate stalePacket junkFlagFrame 5).flags = 0x03 ∧
    ((translate stalePacket junkFlagFrame 5).flags).testBit 7 = false := by
  have h := C4_flag_mapping stalePacket junkFlagFrame 5
  exact ⟨by decide, h.2.2.2 7 (by decide)⟩

/-- Claim C6: the output dlc equals the frame's length verbatim, and a
zero-length frame yields a packet with dlc 0 and an all-zero data field that
is still translated and forwarded (one send attempt) rather than rejected. -/
theorem C6_dlc_verbatim_zero_length (pkt : GatewayPacket) (f : canfd_frame)
    (ts : Nat) (so : Bool) :
    (translate pkt f ts).dlc = f.len ∧
    (f.len = 0 →
      (∀ i : Fin 64, (translate pkt f ts).data i = 0) ∧
      runGateway pkt [LoopEvent.frame f ts so] = [⟨translate pkt f ts, so⟩]) := by
  refine ⟨rfl, fun h0 => ⟨fun i => ?_, rfl⟩⟩
  rw [translate_data_eq]
  simp [h0]

/-- Claim C6 witness: the zero-length frame with a garbage payload array,
translated over a stale buffer, gives dlc 0, an all-zero data field, and one
send attempt. -/
theorem C6_dlc_verbatim_zero_length_witness :
    (translate stalePacket zeroFrame 5).dlc = zeroFrame.len ∧
    (∀ i : Fin 64, (translate stalePacket zeroFrame 5).data i = 0) ∧
    runGateway stalePacket [LoopEvent.frame zeroFrame 5 true] =
      [⟨translate stalePacket zeroFrame 5, true⟩] := by
  have h := C6_dlc_verbatim_zero_length stalePacket zeroFrame 5 true
  have h2 := h.2 (by decide)
  exact ⟨h.1, h2.1, h2.2⟩

/-- Claim C7: a failed read is discarded with nothing sent and the loop goes
on with the remaining reads (never terminating on a single failed read, never
forwarding a partial frame), and 3 short-read errors followed by one valid
frame yield exactly one translation-and-send. -/
theorem C7_loop_resilience :
    (∀ (pkt : GatewayPacket) (es : List LoopEvent),
      runGateway pkt (LoopEvent.readErr :: es) = runGateway pkt es) ∧
    (∀ (pkt : GatewayPacket) (f : canfd_frame) (ts : Nat) (so : Bool),
      runGateway pkt
          [LoopEvent.readErr, LoopEvent.readErr, LoopEvent.readErr,
            LoopEvent.frame f ts so] =
        [⟨translate pkt f ts, so⟩]) :=
  ⟨fun _ _ => rfl, fun _ _ _ _ => rfl⟩

/-- The loop makes exactly one send attempt per complete-frame read, whatever
the send outcomes are. -/
theorem runGateway_length (pkt : GatewayPacket) (es : List LoopEvent) :
    (runGateway pkt es).length = (es.filter LoopEvent.isFrame).length := by
  induction es generalizing pkt with
  | nil => rfl
  | cons e es ih =>
    cases e with
    | readErr => simpa [runGateway, LoopEvent.isFrame] using ih pkt
    | frame f ts so => simp [runGateway, LoopEvent.isFrame, ih]

/-- Claim C8: a reported send failure leaves the loop running on the next
read, the failed packet is attempted exactly once (no retry), and the send
attempts made are the same packets whether that send failed or succeeded; no
per-frame send error terminates the loop or changes how many attempts the
remaining events produce. -/
theorem C8_send_failure_contained :
    (∀ (pkt : GatewayPacket) (f : canfd_frame) (ts : Nat) (es : List LoopEvent),
      runGateway pkt (LoopEvent.frame f ts false :: es) =
        ⟨translate pkt f ts, false⟩ :: runGateway (translate pkt f ts) es) ∧
    (∀ (pkt : GatewayPacket) (f : canfd_frame) (ts : Nat) (es : List LoopEvent),
      (runGateway pkt (LoopEvent.frame f ts false :: es)).map SendAttempt.packet =
        (runGateway pkt (LoopEvent.frame f ts true :: es)).map SendAttempt.packet) ∧
    (∀ (pkt : GatewayPacket) (es : List LoopEvent),
      (runGateway pkt es).length = (es.filter LoopEvent.isFrame).length) :=
  ⟨fun _ _ _ _ => rfl, fun _ _ _ _ => rfl, runGateway_length⟩

/-- The timestamps of consecutively translated packets are exactly the input
timestamps: the translator writes the caller-supplied timestamp unchanged. -/
theorem translateSeq_map_timestamp (pkt : GatewayPacket)
    (inputs : List (canfd_frame × Nat)) :
    (translateSeq pkt inputs).map GatewayPacket.timestamp_ns = inputs.map Prod.snd := by
  induction inputs generalizing pkt with
  | nil => rfl
  | cons p rest ih =>
    cases p with
    | mk f ts => simp [translateSeq, translate, ih]

/-- Claim C9: across a sequence of consecutively translated frames with
non-decreasing input monotonic timestamps, the output timestamp_ns values are
non-decreasing. -/
theorem C9_timestamp_monotone (pkt : GatewayPacket)
    (inputs : List (canfd_frame × Nat))
    (h : List.Chain' (fun a b => a ≤ b) (inputs.map Prod.snd)) :
    List.Chain' (fun a b => a ≤ b)
      ((translateSeq pkt inputs).map GatewayPacket.timestamp_ns) := by
  rw [translateSeq_map_timestamp]
  exact h

/-- Claim C9 witness: three frames with timestamps 5, 5, 9 give packets with
non-decreasing timestamps. -/
theorem C9_timestamp_monotone_witness :
    List.Chain' (fun a b => a ≤ b)
      (([(sampleFrame, 5), (sampleFrame, 5), (sampleFrame, 9)] :
          List (canfd_frame × Nat)).map Prod.snd) ∧
    List.Chain' (fun a b => a ≤ b)
      ((translateSeq stalePacket
          [(sampleFrame, 5), (sampleFrame, 5), (sampleFrame, 9)]).map
        GatewayPacket.timestamp_ns) :=
  ⟨by norm_num [List.chain'_cons], C9_timestamp_monotone stalePacket _ (by norm_num [List.chain'_cons])⟩

/-- Claim C10: the memcpy of the payload writes only offsets below the frame
length — within the 64-byte data array whenever the length is at most 64
(every offset it does not write holds the memset zero) — while the translator
itself enforces no bound: with length 65 the copy would write offset 64, one
past the array. -/
theorem C10_no_bounds_check (f : canfd_frame) (hlen : f.len ≤ 64) :
    (∀ i ∈ memcpyWriteIndices f.len, i < 64) ∧
    (∀ (pkt : GatewayPacket) (ts : Nat) (i : Fin 64),
      i.val ∉ memcpyWriteIndices f.len → (translate pkt f ts).data i = 0) ∧
    64 ∈ memcpyWriteIndices 65 := by
  refine ⟨fun i hi => ?_, fun pkt ts i hi => ?_, ?_⟩
  · simp only [memcpyWriteIndices, List.mem_range] at hi
    omega
  · simp only [memcpyWriteIndices, List.mem_range] at hi
    rw [translate_data_eq]
    simp [hi]
  · simp [memcpyWriteIndices, List.mem_range]

/-- Claim C10 witness: for the 3-byte sample frame every copied offset lies
below 64, and offset 5 (not written) holds zero after translation. -/
theorem C10_no_bounds_check_witness :
    sampleFrame.len ≤ 64 ∧
    (∀ i ∈ memcpyWriteIndices sampleFrame.len, i < 64) ∧
    (translate stalePacket sampleFrame 5).data ⟨5, by decide⟩ = 0 ∧
    64 ∈ memcpyWriteIndices 65 := by
  have h := C10_no_bounds_check sampleFrame (by decide)
  exact ⟨by decide, h.1, h.2.1 stalePacket 5 ⟨5, by decide⟩ (by decide), h.2.2⟩

/-- Byte-exact layout of any serialised packet: 78 bytes total, with the
fields at their packed offsets — timestamp_ns at [0, 8), can_id at [8, 12),
dlc at offset 12, flags at offset 13, data at [14, 78) — and nothing else. -/
theorem packetBytes_layout (p : GatewayPacket) :
    (packetBytes p).length = 78 ∧
    (packetBytes p).take 8 = leBytes p.timestamp_ns 8 ∧
    ((packetBytes p).drop 8).take 4 = leBytes p.can_id 4 ∧
    ((packetBytes p).drop 12).take 1 = [p.dlc % 256] ∧
    ((packetBytes p).drop 13).take 1 = [p.flags % 256] ∧
    (packetBytes p).drop 14 = List.ofFn (fun i => p.data i % 256) := by
  refine ⟨?_, rfl, rfl, rfl, rfl, rfl⟩
  simp [packetBytes, leBytes]

/-- Claim C1: for every valid frame with length 0-64 the produced packet
serialises to exactly PACKET_SIZE = 78 bytes — timestamp_ns (8 bytes) then
can_id (4 bytes) then dlc (1 byte) then flags (1 byte) then data (64 bytes),
with no padding or alignment gaps — and this size is identical across all
emitted packets. -/
theorem C1_packet_size_layout (pkt : GatewayPacket) (f : canfd_frame) (ts : Nat)
    (_hlen : f.len ≤ 64) :
    (packetBytes (translate pkt f ts)).length = PACKET_SIZE ∧
    PACKET_SIZE = 78 ∧
    (packetBytes (translate pkt f ts)).take 8 =
      leBytes (translate pkt f ts).timestamp_ns 8 ∧
    ((packetBytes (translate pkt f ts)).drop 8).take 4 =
      leBytes (translate pkt f ts).can_id 4 ∧
    ((packetBytes (translate pkt f ts)).drop 12).take 1 =
      [(translate pkt f ts).dlc % 256] ∧
    ((packetBytes (translate pkt f ts)).drop 13).take 1 =
      [(translate pkt f ts).flags % 256] ∧
    (packetBytes (translate pkt f ts)).drop 14 =
      List.ofFn (fun i => (translate pkt f ts).data i % 256) ∧
    ∀ (pkt' : GatewayPacket) (f' : canfd_frame) (ts' : Nat),
      (packetBytes (translate pkt' f' ts')).length =
        (packetBytes (translate pkt f ts)).length := by
  obtain ⟨hl, h8, h12, h13, h14, hdata⟩ := packetBytes_layout (translate pkt f ts)
  refine ⟨by rw [hl]; rfl, rfl, h8, h12, h13, h14, hdata, fun pkt' f' ts' => ?_⟩
  rw [hl, (packetBytes_layout (translate pkt' f' ts')).1]

/-- Claim C1 witness: the sample frame over a stale buffer serialises to the
fixed 78-byte packet size. -/
theorem C1_packet_size_layout_witness :
    sampleFrame.len ≤ 64 ∧
    (packetBytes (translate stalePacket sampleFrame 1000000000)).length = PACKET_SIZE := by
  have h := C1_packet_size_layout stalePacket sampleFrame 1000000000 (by decide)
  exact ⟨by decide, h.1⟩

end Gateway
